import Mathlib

/-!
Verification of the conversation-extractor core
(`src/extract_claude_logs.py` and `src/watch_server.py`).

This file is a shallow embedding of the record parser, content
normalizer, cross-reference resolver, renderers, tail ingester and
broadcaster of the repository, followed by theorems settling the
specification claims.

Modelling conventions:
* Raw JSON values (the per-line records) are the inductive `Json`.
  Python `dict.get(k, default)` is `Json.lookup`/`getStrD`/`getD`.
  Functions that recurse through `Json` use `where` helpers over the
  nested lists so the recursion stays structural (and hence reduces
  inside the kernel).
* Python string truthiness (`if s:`) is `s ≠ ""`; truthiness of a JSON
  value is `pyTruthy`.  `str.strip()` is `pyStrip` (ASCII whitespace;
  Python also strips some further Unicode whitespace, which no claim
  exercises).  `str(x)` on a parsed-JSON value is `pyStr` and f-string
  interpolation is `pyFStr`.
* Identifier-like fields that the source reads with `.get(k, d)` and
  uses as strings (ids, tool names, roles, type tags) are extracted
  with `getStrD`, which yields the default when the value is absent or
  not a string; the spec's data model types these fields as strings.
  Content text payloads (`text`/`thinking` block fields) are NOT under
  this convention: `_extract_rich_content` below restricts them to
  strings (the restriction every input appearing in claims C1–C9
  satisfies), and `_extract_rich_content_full` models the full raw
  domain — non-string payloads pass through unchanged and the
  rich-branch join can raise — which settles claim C10.
-/

namespace ClaudeExtractor

/-- `"\n".join(l)`-style separator join. -/
def joinSep (sep : String) : List String → String
  | [] => ""
  | [x] => x
  | x :: xs => x ++ sep ++ joinSep sep xs

/-- The apostrophe character (written by code point to keep source plain). -/
def aposChar : Char := Char.ofNat 39

/-- Python `str.strip()` on the character list: drop whitespace from both ends. -/
def pyStripList (l : List Char) : List Char :=
  ((l.dropWhile Char.isWhitespace).reverse.dropWhile Char.isWhitespace).reverse

/-- Python `str.strip()`. -/
def pyStrip (s : String) : String := String.mk (pyStripList s.data)

/-- Parsed JSON values, the raw-record domain of the parser. -/
inductive Json where
  | null
  | bool (b : Bool)
  | num (n : Int)
  | str (s : String)
  | arr (xs : List Json)
  | obj (kvs : List (String × Json))

/-- Python `d.get(k)` on a parsed JSON object (`None`, i.e. `none`, when the
receiver is not a dict or the key is absent). -/
def Json.lookup : Json → String → Option Json
  | .obj kvs, k => (kvs.find? (fun p => p.1 == k)).map (fun p => p.2)
  | _, _ => none

/-- Python `d.get(k, default)`. -/
def Json.getD (j : Json) (k : String) (d : Json) : Json :=
  (j.lookup k).getD d

/-- `d.get(k, default)` for a field used as a string: yields `default`
when the key is absent or the value is not a string. -/
def Json.getStrD (j : Json) (k d : String) : String :=
  match j.lookup k with
  | some (.str s) => s
  | _ => d

/-- `entry.get("type") == t` for a string literal `t`. -/
def typeIs (j : Json) (t : String) : Bool :=
  match j.lookup "type" with
  | some (.str s) => s == t
  | _ => false

/-- `msg.get("role") == r`. -/
def roleIs (j : Json) (r : String) : Bool :=
  match j.lookup "role" with
  | some (.str s) => s == r
  | _ => false

/-- `isinstance(j, dict)`. -/
def Json.isObj : Json → Bool
  | .obj _ => true
  | _ => false

/-- `isinstance(j, list)`. -/
def Json.isArr : Json → Bool
  | .arr _ => true
  | _ => false

/-- `isinstance(j, str)`. -/
def Json.isStr : Json → Bool
  | .str _ => true
  | _ => false

/-- `"k" in entry`. -/
def Json.hasKey (j : Json) (k : String) : Bool :=
  (j.lookup k).isSome

/-- Python truthiness of a parsed JSON value. -/
def pyTruthy : Json → Bool
  | .null => false
  | .bool b => b
  | .num n => n != 0
  | .str s => s != ""
  | .arr xs => !xs.isEmpty
  | .obj kvs => !kvs.isEmpty

/-- One character of Python `repr` of a string: backslash and control
escapes; other characters verbatim (as CPython prints printable text). -/
def pyReprChar (c : Char) : List Char :=
  if c = '\\' then ['\\', '\\']
  else if c = '\n' then ['\\', 'n']
  else if c = '\r' then ['\\', 'r']
  else if c = '\t' then ['\\', 't']
  else [c]

/-- Python `repr` of a string: single-quoted with escapes (double-quoted
when the text contains an apostrophe but no double quote, as CPython does). -/
def pyReprStr (s : String) : String :=
  if s.data.contains aposChar ∧ ¬ s.data.contains '"' then
    String.mk ('"' :: s.data.flatMap pyReprChar ++ ['"'])
  else
    String.mk (aposChar :: s.data.flatMap (fun c =>
      if c = aposChar then ['\\', aposChar] else pyReprChar c) ++ [aposChar])

/-- Python `str()` of a parsed JSON value (`str()` of a string is itself;
values nested inside containers print with `repr`, so nested strings are
quoted). -/
def pyStr : Json → String
  | .null => "None"
  | .bool true => "True"
  | .bool false => "False"
  | .num n => toString n
  | .str s => s
  | .arr xs => "[" ++ joinSep ", " (inArr xs) ++ "]"
  | .obj kvs => "\x7b" ++ joinSep ", " (inObj kvs) ++ "\x7d"
where
  inner : Json → String
  | .str s => pyReprStr s
  | .null => "None"
  | .bool true => "True"
  | .bool false => "False"
  | .num n => toString n
  | .arr xs => "[" ++ joinSep ", " (inArr xs) ++ "]"
  | .obj kvs => "\x7b" ++ joinSep ", " (inObj kvs) ++ "\x7d"
  inArr : List Json → List String
  | [] => []
  | v :: rest => inner v :: inArr rest
  inObj : List (String × Json) → List String
  | [] => []
  | (k, v) :: rest => (pyReprStr k ++ ": " ++ inner v) :: inObj rest

/-- Python f-string interpolation `f"{j}"` of a parsed JSON value. -/
def pyFStr : Json → String
  | .str s => s
  | j => pyStr j

/-- Hex digit for `\u00XX` escapes. -/
def hexDigit (n : Nat) : Char :=
  if n < 10 then Char.ofNat ('0'.toNat + n) else Char.ofNat ('a'.toNat + n - 10)

/-- One character of `json.dumps` string encoding (`ensure_ascii=False`). -/
def jsonQuoteChar (c : Char) : List Char :=
  if c = '"' then ['\\', '"']
  else if c = '\\' then ['\\', '\\']
  else if c = '\n' then ['\\', 'n']
  else if c = '\r' then ['\\', 'r']
  else if c = '\t' then ['\\', 't']
  else if c.toNat < 32 then
    ['\\', 'u', '0', '0', hexDigit (c.toNat / 16), hexDigit (c.toNat % 16)]
  else [c]

/-- `json.dumps` encoding of one string (`ensure_ascii=False`). -/
def jsonQuote (s : String) : String :=
  String.mk ('"' :: s.data.flatMap jsonQuoteChar ++ ['"'])

/-- Indentation prefix at a nesting level for `json.dumps(..., indent=2)`. -/
def dumpsIndent (lvl : Nat) : String := String.mk (List.replicate (2 * lvl) ' ')

/-- `json.dumps(j, indent=2, ensure_ascii=False)` as used by the source
for tool inputs (numbers are modelled as integers). -/
def jsonDumps (j : Json) : String := go 0 j
where
  go : Nat → Json → String
  | _, .null => "null"
  | _, .bool true => "true"
  | _, .bool false => "false"
  | _, .num n => toString n
  | _, .str s => jsonQuote s
  | _, .arr [] => "[]"
  | lvl, .arr xs =>
      "[\n" ++ joinSep ",\n" (goArr (lvl + 1) xs) ++ "\n" ++ dumpsIndent lvl ++ "]"
  | _, .obj [] => "\x7b\x7d"
  | lvl, .obj kvs =>
      "\x7b\n" ++ joinSep ",\n" (goObj (lvl + 1) kvs) ++ "\n" ++ dumpsIndent lvl ++ "\x7d"
  goArr : Nat → List Json → List String
  | _, [] => []
  | lvl, v :: rest => (dumpsIndent lvl ++ go lvl v) :: goArr lvl rest
  goObj : Nat → List (String × Json) → List String
  | _, [] => []
  | lvl, (k, v) :: rest =>
      (dumpsIndent lvl ++ jsonQuote k ++ ": " ++ go lvl v) :: goObj lvl rest

/-- Structured content parts, the tagged union built by the normalizer
(each constructor mirrors one of the part dicts the source constructs;
`other` stands for a part dict whose `type` tag is none of the
recognized ones, which the normalizer never emits but the renderers
may receive). -/
inductive Part where
  | text (text : String)
  | thinking (thinking : String)
  | toolUse (name : String) (input : Json)
  | image (sourceType : String) (source : Option Json) (hasFullData : Bool)
      (dataUrl : Option String)
  | toolReference (toolName : String)
  | toolResult (toolUseId : String) (toolName : Option String) (content : Part)
  | other (ty : String)

/-- The structured content dict `{"type": ..., "text": ..., "parts": ...}`. -/
structure RichContent where
  type : String
  text : String
  parts : List Part

/-- The declared return type of `_extract_rich_content`:
`Union[str, Dict[str, Any]]`. -/
inductive ExtractResult where
  | asString (s : String)
  | asDict (c : RichContent)

/-- `tool_display = tool_name if tool_name else f"{tool_use_id[:8]}..."`
(the stored `tool_name` is `None` or a string; both `None` and `""` are
falsy). -/
def toolDisplay (toolUseId : String) (toolName : Option String) : String :=
  match toolName with
  | some n => if n == "" then toolUseId.take 8 ++ "..." else n
  | none => toolUseId.take 8 ++ "..."

/-- The per-part contributions to the flattened text projection
(the `text_parts` loop of `_extract_rich_content`; `tool_use`
contributes two entries, unrecognized parts contribute none). -/
def partTextPieces : Part → List String
  | .text t => [t]
  | .thinking th => ["\n[Thinking] " ++ th ++ "\n"]
  | .toolUse name input =>
      ["\n🔧 Using tool: " ++ name ++ "\n", "Input: " ++ jsonDumps input ++ "\n"]
  | .image _ _ _ _ => ["\n[Image]\n"]
  | .toolReference tn => ["\n[Tool Reference] " ++ tn ++ "\n"]
  | .toolResult tuid tn inner =>
      match inner with
      | .text t => ["\n[Tool Result: " ++ toolDisplay tuid tn ++ "]\n" ++ t ++ "\n"]
      | .image _ _ _ _ => ["\n[Tool Result: " ++ toolDisplay tuid tn ++ "]\n[Image]\n"]
      | _ => ["\n[Tool Result: " ++ toolDisplay tuid tn ++ "]\n"]
  | .other _ => []

/-- The collapse rule at the end of `_extract_rich_content`'s list case:
exactly one text part keeps the simplified `text` form, zero parts give
empty content, anything else becomes `rich` with the joined projection. -/
def buildRich : List Part → ExtractResult
  | [Part.text t] => .asDict ⟨"text", t, [Part.text t]⟩
  | [] => .asDict ⟨"text", "", []⟩
  | ps => .asDict ⟨"rich", joinSep "\n" (ps.flatMap partTextPieces), ps⟩

/-- `_extract_rich_content(content, detailed)`: normalize a raw content
value (string, list of typed blocks, or anything else) into the
structured form.  A `tool_result` block recurses into its `content`
field (Python `item.get("content", [])`; the `[]` default's extraction
is inlined in the `contentField` helper's nil case so the recursion
stays structural).  Blocks that are not dicts and dicts with an
unrecognized `type` are dropped.  A non-string `dataUrl` is modelled as
absent (the source would store it raw and later crash rendering it;
no claim exercises that corner).  This model takes the `text` and
`thinking` payloads as strings; `_extract_rich_content_full` below is
the same function over the full raw domain, where those payloads stay
raw JSON values. -/
def _extract_rich_content (content : Json) (detailed : Bool) : ExtractResult :=
  match content with
  | .str s => .asDict ⟨"text", s, [.text s]⟩
  | .arr items => buildRich (partsOf items)
  | j => .asDict ⟨"text", pyStr j, [.text (pyStr j)]⟩
where
  partsOf : List Json → List Part
  | [] => []
  | item :: rest => itemParts item ++ partsOf rest
  itemParts : Json → List Part
  | .obj kvs =>
      let item := Json.obj kvs
      if typeIs item "text" then [.text (item.getStrD "text" "")]
      else if typeIs item "thinking" then [.thinking (item.getStrD "thinking" "")]
      else if typeIs item "tool_use" then
        if detailed then
          [.toolUse (item.getStrD "name" "unknown") (item.getD "input" (.obj []))]
        else []
      else if typeIs item "image" then
        let source := item.getD "source" (.obj [])
        [.image (source.getStrD "type" "unknown")
          (if source.hasKey "data" then some source else none)
          (source.hasKey "data")
          (match source.lookup "dataUrl" with | some (.str u) => some u | _ => none)]
      else if typeIs item "tool_reference" then
        [.toolReference (item.getStrD "tool_name" "unknown")]
      else if typeIs item "tool_result" then
        match contentField kvs with
        | .asDict ic => ic.parts.map (fun ip =>
            .toolResult (item.getStrD "tool_use_id" "") none ip)
        | .asString s =>
            [.toolResult (item.getStrD "tool_use_id" "") none (.text s)]
      else []
  | _ => []
  contentField : List (String × Json) → ExtractResult
  | [] => .asDict ⟨"text", "", []⟩
  | (k, v) :: rest =>
      if k == "content" then _extract_rich_content v detailed else contentField rest

/-- Session-scoped resolution table (`dict` keyed by strings);
`mapSet` is dict assignment, `mapGet` is `.get(k, "")`. -/
def mapSet : List (String × String) → String → String → List (String × String)
  | [], k, v => [(k, v)]
  | p :: rest, k, v => if p.1 == k then (k, v) :: rest else p :: mapSet rest k v

/-- `m.get(k, "")`. -/
def mapGet (m : List (String × String)) (k : String) : String :=
  match m.find? (fun p => p.1 == k) with
  | some p => p.2
  | none => ""

/-- The fill pass on one part: set `tool_name` on a `tool_result` part
whose id is non-empty and whose name is still unset (None or empty),
when the table resolves it to a non-empty name. -/
def fillPart (names : List (String × String)) : Part → Part
  | .toolResult tuid tn inner =>
      if tuid != "" && (match tn with | none => true | some s => s == "") then
        if mapGet names tuid != "" then .toolResult tuid (some (mapGet names tuid)) inner
        else .toolResult tuid tn inner
      else .toolResult tuid tn inner
  | p => p

/-- `_fill_tool_names(content, tool_use_to_name)`: walk the top-level
parts and fill resolvable `tool_result` names; strings and the `text`
projection are left untouched (the source mutates the part dicts after
the projection was already built). -/
def _fill_tool_names (content : ExtractResult) (names : List (String × String)) :
    ExtractResult :=
  match content with
  | .asString s => .asString s
  | .asDict c => .asDict ⟨c.type, c.text, c.parts.map (fillPart names)⟩

/-- The text projection the parser filters on: `content.get("text", "")`
for the dict form, `str(content)` for the string form. -/
def textProjER : ExtractResult → String
  | .asString s => s
  | .asDict c => c.text

/-- The part dict as written to the interchange (JSON) encoding by
`save_as_json` (keys in the insertion order the source uses). -/
def encodePart : Part → Json
  | .text t => .obj [("type", .str "text"), ("text", .str t)]
  | .thinking th => .obj [("type", .str "thinking"), ("thinking", .str th)]
  | .toolUse name input =>
      .obj [("type", .str "tool_use"), ("name", .str name), ("input", input)]
  | .image st src hfd du =>
      .obj ([("type", .str "image"), ("source_type", .str st)]
        ++ (match src with
            | some s => [("source", s), ("has_full_data", .bool hfd)]
            | none => [])
        ++ (match du with | some u => [("data_url", .str u)] | none => []))
  | .toolReference tn =>
      .obj [("type", .str "tool_reference"), ("tool_name", .str tn)]
  | .toolResult tuid tn inner =>
      .obj [("type", .str "tool_result"), ("tool_use_id", .str tuid),
            ("tool_name", match tn with | some n => .str n | none => .null),
            ("content", encodePart inner)]
  | .other ty => .obj [("type", .str ty)]

/-- The content value as written to the interchange (JSON) encoding. -/
def encodeContent : ExtractResult → Json
  | .asString s => .str s
  | .asDict c =>
      .obj [("type", .str c.type), ("text", .str c.text),
            ("parts", .arr (c.parts.map encodePart))]

/-- Python `str(part_dict)` for a stored part (used by the renderers'
stringify fallback for unrecognized inner content of a tool result). -/
def partRepr (p : Part) : String := pyStr (encodePart p)

/-- Structured content parts over the full raw input domain: identical
to `Part` except that the `text` and `thinking` payloads are the raw
values the source stores with `item.get("text", "")` /
`item.get("thinking", "")`, which need not be strings. -/
inductive PartRaw where
  | text (tval : Json)
  | thinking (tval : Json)
  | toolUse (name : String) (input : Json)
  | image (sourceType : String) (source : Option Json) (hasFullData : Bool)
      (dataUrl : Option String)
  | toolReference (toolName : String)
  | toolResult (toolUseId : String) (toolName : Option String) (content : PartRaw)
  | other (ty : String)

/-- The structured content dict over the full raw domain: the `text`
key holds whatever value the collapse rule put there — a raw
pass-through for the single-text-part case, a built string otherwise. -/
structure RichContentRaw where
  type : String
  text : Json
  parts : List PartRaw

/-- The declared `Union[str, Dict[str, Any]]` return type, full-domain
version. -/
inductive ExtractResultRaw where
  | asString (s : String)
  | asDict (c : RichContentRaw)

/-- The per-part contributions to `text_parts` over the raw domain: a
text block appends its payload RAW (`text_parts.append(part["text"])`),
every other contribution is an f-string and hence a string
(`pyFStr` stringifies a raw `thinking` or inner tool-result payload,
exactly as the f-string does). -/
def partTextPiecesRaw : PartRaw → List Json
  | .text tv => [tv]
  | .thinking tv => [.str ("\n[Thinking] " ++ pyFStr tv ++ "\n")]
  | .toolUse name input =>
      [.str ("\n🔧 Using tool: " ++ name ++ "\n"),
       .str ("Input: " ++ jsonDumps input ++ "\n")]
  | .image _ _ _ _ => [.str "\n[Image]\n"]
  | .toolReference tn => [.str ("\n[Tool Reference] " ++ tn ++ "\n")]
  | .toolResult tuid tn inner =>
      match inner with
      | .text tv =>
          [.str ("\n[Tool Result: " ++ toolDisplay tuid tn ++ "]\n" ++ pyFStr tv ++ "\n")]
      | .image _ _ _ _ =>
          [.str ("\n[Tool Result: " ++ toolDisplay tuid tn ++ "]\n[Image]\n")]
      | _ => [.str ("\n[Tool Result: " ++ toolDisplay tuid tn ++ "]\n")]
  | .other _ => []

/-- `"\n".join(text_parts)` with Python's failure semantics: the join
raises `TypeError` (modelled as `none`) as soon as any element is not
a string. -/
def seqStrings : List Json → Option (List String)
  | [] => some []
  | .str s :: rest => (seqStrings rest).map (fun l => s :: l)
  | _ :: _ => none

/-- The collapse rule over the raw domain: a single text part passes
its payload through raw (no join, hence no failure); zero parts give
empty content; otherwise the joined projection is built, failing when
a raw text payload is not a string. -/
def buildRichFull : List PartRaw → Option ExtractResultRaw
  | [PartRaw.text tv] => some (.asDict ⟨"text", tv, [PartRaw.text tv]⟩)
  | [] => some (.asDict ⟨"text", .str "", []⟩)
  | ps =>
      (seqStrings (ps.flatMap partTextPiecesRaw)).map
        (fun l => .asDict ⟨"rich", .str (joinSep "\n" l), ps⟩)

/-- `_extract_rich_content(content, detailed)` over the FULL raw input
domain: the same source function as `_extract_rich_content` above, but
the `text`/`thinking` block payloads stay raw JSON values and a
`TypeError` escaping the rich-branch `"\n".join` (or a recursive
`tool_result` extraction) is `none`.  Identifier-like fields keep the
header's string convention.  Everything else mirrors
`_extract_rich_content` clause for clause. -/
def _extract_rich_content_full (content : Json) (detailed : Bool) :
    Option ExtractResultRaw :=
  match content with
  | .str s => some (.asDict ⟨"text", .str s, [.text (.str s)]⟩)
  | .arr items =>
      match partsOfFull items with
      | some ps => buildRichFull ps
      | none => none
  | j => some (.asDict ⟨"text", .str (pyStr j), [.text (.str (pyStr j))]⟩)
where
  partsOfFull : List Json → Option (List PartRaw)
  | [] => some []
  | item :: rest =>
      match itemPartsFull item with
      | some ps =>
          match partsOfFull rest with
          | some rs => some (ps ++ rs)
          | none => none
      | none => none
  itemPartsFull : Json → Option (List PartRaw)
  | .obj kvs =>
      let item := Json.obj kvs
      if typeIs item "text" then some [.text (item.getD "text" (.str ""))]
      else if typeIs item "thinking" then some [.thinking (item.getD "thinking" (.str ""))]
      else if typeIs item "tool_use" then
        some (if detailed then
          [.toolUse (item.getStrD "name" "unknown") (item.getD "input" (.obj []))]
        else [])
      else if typeIs item "image" then
        let source := item.getD "source" (.obj [])
        some [.image (source.getStrD "type" "unknown")
          (if source.hasKey "data" then some source else none)
          (source.hasKey "data")
          (match source.lookup "dataUrl" with | some (.str u) => some u | _ => none)]
      else if typeIs item "tool_reference" then
        some [.toolReference (item.getStrD "tool_name" "unknown")]
      else if typeIs item "tool_result" then
        match contentFieldFull kvs with
        | some (.asDict ic) => some (ic.parts.map (fun ip =>
            .toolResult (item.getStrD "tool_use_id" "") none ip))
        | some (.asString s) =>
            some [.toolResult (item.getStrD "tool_use_id" "") none (.text (.str s))]
        | none => none
      else some []
  | _ => some []
  contentFieldFull : List (String × Json) → Option ExtractResultRaw
  | [] => some (.asDict ⟨"text", .str "", []⟩)
  | (k, v) :: rest =>
      if k == "content" then _extract_rich_content_full v detailed
      else contentFieldFull rest

/-- One character of `_escape_html`.  The source chains five global
`str.replace` passes (`&` first, then `<`, `>`, `"`, the apostrophe);
since no replacement string contains a character that a later pass
replaces, the chain equals this per-character map. -/
def escHtmlChar (c : Char) : List Char :=
  if c = '&' then "&amp;".data
  else if c = '<' then "&lt;".data
  else if c = '>' then "&gt;".data
  else if c = '"' then "&quot;".data
  else if c = aposChar then "&#x27;".data
  else [c]

/-- `_escape_html(text)`: escape HTML special characters. -/
def _escape_html (s : String) : String := String.mk (s.data.flatMap escHtmlChar)

/-- The HTML string built for an image (shared verbatim by the
top-level `image` branch and the image branch inside `tool_result`
of `_render_content_to_html`).  Note the base64 `data` payload is
interpolated into the `src` attribute unescaped, while the `data_url`
variant goes through `_escape_html`. -/
def imageHtmlPiece (source : Option Json) (hasFullData : Bool)
    (dataUrl : Option String) : String :=
  let s := match source with | some s => s | none => Json.obj []
  if s.hasKey "data" && hasFullData then
    "<div class=\"content-image\">" ++
    "<img src=\"data:image/jpeg;base64," ++ pyFStr ((s.lookup "data").getD (.str "")) ++
    "\" alt=\"Screenshot\" style=\"max-width: 100%; height: auto;\" />" ++
    "</div>"
  else
    match dataUrl with
    | some u =>
        if u != "" then
          "<div class=\"content-image\">" ++
          "<img src=\"" ++ _escape_html u ++
          "\" alt=\"Screenshot\" style=\"max-width: 100%; height: auto;\" />" ++
          "</div>"
        else "<div class=\"content-image-placeholder\">[Image Data]</div>"
    | none => "<div class=\"content-image-placeholder\">[Image Data]</div>"

/-- The strings appended to `html_parts` for one part by
`_render_content_to_html` (a `tool_result` part appends an opening
div, a header, a content piece and a closing div; an unrecognized
part type appends nothing — there is no `else` branch in the source's
dispatch). -/
def partHtmlPieces : Part → List String
  | .text t => ["<div class=\"content-text\">" ++ _escape_html t ++ "</div>"]
  | .thinking th =>
      ["<div class=\"content-thinking\">" ++
       "<div class=\"thinking-header\">Thinking Process</div>" ++
       "<div class=\"thinking-content\">" ++ _escape_html th ++ "</div>" ++
       "</div>"]
  | .toolUse name input =>
      ["<div class=\"content-tool-use\">" ++
       "<div class=\"tool-name\">🔧 " ++ _escape_html name ++ "</div>" ++
       "<pre class=\"tool-input\">" ++ _escape_html (jsonDumps input) ++ "</pre>" ++
       "</div>"]
  | .image _ src hfd du => [imageHtmlPiece src hfd du]
  | .toolReference tn =>
      ["<div class=\"content-tool-reference\">" ++
       "<span class=\"tool-ref-label\">Tool Reference:</span> " ++
       "<code>" ++ _escape_html tn ++ "</code>" ++
       "</div>"]
  | .toolResult tuid tn inner =>
      ["<div class=\"content-tool-result\">",
       "<div class=\"tool-result-header\">📤 Tool Result: " ++
         _escape_html (toolDisplay tuid tn) ++ "</div>"] ++
      (match inner with
       | .text t => ["<div class=\"tool-result-content\">" ++ _escape_html t ++ "</div>"]
       | .image _ src hfd du => [imageHtmlPiece src hfd du]
       | p => ["<div class=\"tool-result-content\">" ++ _escape_html (partRepr p) ++ "</div>"]) ++
      ["</div>"]
  | .other _ => []

/-- `return "\\n".join(html_parts) if html_parts else self._escape_html(content.get("text", ""))`. -/
def htmlJoin (text : String) : List String → String
  | [] => _escape_html text
  | pieces => joinSep "\n" pieces

/-- `_render_content_to_html(content)`: escape a plain string, or join
the per-part pieces; when no part produced a piece, fall back to the
escaped flattened text. -/
def _render_content_to_html : ExtractResult → String
  | .asString s => _escape_html s
  | .asDict c => htmlJoin c.text (c.parts.flatMap partHtmlPieces)

/-- The strings appended to `markdown_parts` for one part by
`_render_content_to_markdown` (a `tool_result` part appends a header
and a content piece; an unrecognized part type appends nothing). -/
def partMdPieces : Part → List String
  | .text t => [t]
  | .thinking th => ["\n**Thinking Process:**\n\n```\n" ++ th ++ "\n```\n"]
  | .toolUse name input =>
      ["\n**🔧 Using Tool:** `" ++ name ++ "`\n\n```json\n" ++ jsonDumps input ++ "\n```\n"]
  | .image _ _ _ _ => ["\n**📷 Image**\n\n*[Image data included in conversation]*\n"]
  | .toolReference tn => ["\n**Tool Reference:** `" ++ tn ++ "`\n"]
  | .toolResult tuid tn inner =>
      ["\n**📤 Tool Result: " ++ toolDisplay tuid tn ++ "**\n\n"] ++
      (match inner with
       | .text t => [t ++ "\n"]
       | .image _ _ _ _ => ["*[Image data included in conversation]*\n"]
       | p => [partRepr p ++ "\n"])
  | .other _ => []

/-- `return "\\n".join(markdown_parts) if markdown_parts else content.get("text", "")`. -/
def mdJoin (text : String) : List String → String
  | [] => text
  | pieces => joinSep "\n" pieces

/-- `_render_content_to_markdown(content)`: pass a plain string
through, or join the per-part pieces; when no part produced a piece,
fall back to the flattened text. -/
def _render_content_to_markdown : ExtractResult → String
  | .asString s => s
  | .asDict c => mdJoin c.text (c.parts.flatMap partMdPieces)

/-- Modelled from the spec: the image HTML rendering as the spec's
sentence "Text destined for markup output must be escaped for the
target encoding" demands it — identical to `imageHtmlPiece` except
that the base64 payload is also escaped before insertion.  Used only
to state claim C6 (all inserted text escaped) for comparison with the
source renderer. -/
def imageHtmlPieceClaimed (source : Option Json) (hasFullData : Bool)
    (dataUrl : Option String) : String :=
  let s := match source with | some s => s | none => Json.obj []
  if s.hasKey "data" && hasFullData then
    "<div class=\"content-image\">" ++
    "<img src=\"data:image/jpeg;base64," ++
    _escape_html (pyFStr ((s.lookup "data").getD (.str ""))) ++
    "\" alt=\"Screenshot\" style=\"max-width: 100%; height: auto;\" />" ++
    "</div>"
  else
    match dataUrl with
    | some u =>
        if u != "" then
          "<div class=\"content-image\">" ++
          "<img src=\"" ++ _escape_html u ++
          "\" alt=\"Screenshot\" style=\"max-width: 100%; height: auto;\" />" ++
          "</div>"
        else "<div class=\"content-image-placeholder\">[Image Data]</div>"
    | none => "<div class=\"content-image-placeholder\">[Image Data]</div>"

/-- Modelled from the spec: per-part HTML pieces with every inserted
text escaped (differs from `partHtmlPieces` only through
`imageHtmlPieceClaimed`). -/
def partHtmlPiecesClaimed : Part → List String
  | .image _ src hfd du => [imageHtmlPieceClaimed src hfd du]
  | .toolResult tuid tn inner =>
      ["<div class=\"content-tool-result\">",
       "<div class=\"tool-result-header\">📤 Tool Result: " ++
         _escape_html (toolDisplay tuid tn) ++ "</div>"] ++
      (match inner with
       | .text t => ["<div class=\"tool-result-content\">" ++ _escape_html t ++ "</div>"]
       | .image _ src hfd du => [imageHtmlPieceClaimed src hfd du]
       | p => ["<div class=\"tool-result-content\">" ++ _escape_html (partRepr p) ++ "</div>"]) ++
      ["</div>"]
  | p => partHtmlPieces p

/-- Modelled from the spec: the fully-escaped HTML renderer claim C6
compares the source renderer against. -/
def renderHtmlClaimed : ExtractResult → String
  | .asString s => _escape_html s
  | .asDict c => htmlJoin c.text (c.parts.flatMap partHtmlPiecesClaimed)

/-- Metadata attached to subagent progress messages. -/
structure MessageMeta where
  agent_id : String
  agent_type : String
  subagent_type : String
  parent_tool_use_id : String

/-- One canonical message emitted by the parser (the dicts appended to
`conversation`; `metadata` is present only for subagent roles, and the
detailed-mode tool/system entries carry plain-string content). -/
structure Message where
  role : String
  content : ExtractResult
  metadata : Option MessageMeta
  timestamp : Json

/-- The session-scoped resolution tables
(`tool_use_to_name`, `tool_use_to_subagent_type`). -/
structure PState where
  toolUseToName : List (String × String)
  toolUseToSubagentType : List (String × String)

/-- The tool-use tracking step of the assistant branches: register
`id → name` (both non-empty), and for the `Task` tool register
`id → subagent_type`.  `idCheckForTask` distinguishes the batch parser
(`if subagent_type:`) from the watch parser
(`if subagent_type and tool_id:`). -/
def trackItemA (idCheckForTask : Bool) (st : PState) (item : Json) : PState :=
  if item.isObj && typeIs item "tool_use" then
    let toolId := item.getStrD "id" ""
    let toolName := item.getStrD "name" ""
    let st1 :=
      if toolId != "" && toolName != "" then
        { st with toolUseToName := mapSet st.toolUseToName toolId toolName }
      else st
    if toolName == "Task" then
      let subagentType := (item.getD "input" (.obj [])).getStrD "subagent_type" ""
      if (if idCheckForTask then subagentType != "" && toolId != "" else subagentType != "") then
        { st1 with toolUseToSubagentType := mapSet st1.toolUseToSubagentType toolId subagentType }
      else st1
    else st1
  else st

/-- The tool-use scanning loop over an assistant content list
(a non-list content is not scanned). -/
def trackContentA (idCheckForTask : Bool) (st : PState) (content : Json) : PState :=
  match content with
  | .arr items => items.foldl (trackItemA idCheckForTask) st
  | _ => st

/-- Tool-use tracking inside subagent messages: names only. -/
def trackItemN (st : PState) (item : Json) : PState :=
  if item.isObj && typeIs item "tool_use" then
    let toolId := item.getStrD "id" ""
    let toolName := item.getStrD "name" ""
    if toolId != "" && toolName != "" then
      { st with toolUseToName := mapSet st.toolUseToName toolId toolName }
    else st
  else st

/-- The names-only tool-use scanning loop over a subagent content list. -/
def trackContentN (st : PState) (content : Json) : PState :=
  match content with
  | .arr items => items.foldl trackItemN st
  | _ => st

/-- The emission filter shared by the user/assistant/subagent branches:
`if text and text.strip():` append the message, else nothing. -/
def emitIfText (role : String) (rich : ExtractResult) (meta : Option MessageMeta)
    (ts : Json) : Option Message :=
  if pyStrip (textProjER rich) != "" then some ⟨role, rich, meta, ts⟩ else none

/-- `entry.get("timestamp", "")`. -/
def tsOf (entry : Json) : Json := (entry.lookup "timestamp").getD (.str "")

/-- The `progress` branch of `extract_conversation`: subagent progress
records, names-only tracking, metadata attachment, strip filter. -/
def processProgress (detailed : Bool) (st : PState) (entry : Json) :
    PState × Option Message :=
  let data := entry.getD "data" (.obj [])
  if typeIs data "agent_progress" then
    let messageData := data.getD "message" (.obj [])
    if pyTruthy messageData then
      let msg := messageData.getD "message" (.obj [])
      let agentId := data.getStrD "agentId" "unknown"
      let parentId := entry.getStrD "parentToolUseID" ""
      let subagentType := mapGet st.toolUseToSubagentType parentId
      let ts := (messageData.lookup "timestamp").getD (tsOf entry)
      if typeIs messageData "user" && roleIs msg "user" then
        let content := msg.getD "content" (.arr [])
        let st1 := trackContentN st content
        let rich := _fill_tool_names (_extract_rich_content content detailed)
          st1.toolUseToName
        (st1, emitIfText "subagent_user" rich
          (some ⟨agentId, "subagent", subagentType, parentId⟩) ts)
      else if typeIs messageData "assistant" && roleIs msg "assistant" then
        let content := msg.getD "content" (.arr [])
        let st1 := trackContentN st content
        let rich := _fill_tool_names (_extract_rich_content content detailed)
          st1.toolUseToName
        (st1, emitIfText "subagent_assistant" rich
          (some ⟨agentId, "subagent", subagentType, parentId⟩) ts)
      else (st, none)
    else (st, none)
  else (st, none)

/-- The `elif detailed:` branch of `extract_conversation`: top-level
`tool_use`/`tool_result`/`system` entries become plain-string messages
with no strip filter (the `system` one requires a truthy `message`).
The `tool_use` branch's `json.dumps(tool_input, indent=2)` leaves
`ensure_ascii` at its default, which `jsonDumps` does not model for
non-ASCII input (no claim evaluates it). -/
def processDetailedEntry (st : PState) (entry : Json) : PState × Option Message :=
  if typeIs entry "tool_use" then
    let tool := entry.getD "tool" (.obj [])
    let toolName := tool.getStrD "name" "unknown"
    let toolInput := tool.getD "input" (.obj [])
    (st, some ⟨"tool_use",
      .asString ("🔧 Tool: " ++ toolName ++ "\nInput: " ++ jsonDumps toolInput),
      none, tsOf entry⟩)
  else if typeIs entry "tool_result" then
    let result := entry.getD "result" (.obj [])
    let o := result.getD "output" (.str "")
    let output := if pyTruthy o then o else result.getD "error" (.str "")
    (st, some ⟨"tool_result", .asString ("📤 Result:\n" ++ pyFStr output),
      none, tsOf entry⟩)
  else if typeIs entry "system" && entry.hasKey "message" then
    let m := entry.getD "message" (.str "")
    if pyTruthy m then
      (st, some ⟨"system", .asString ("ℹ️ System: " ++ pyFStr m), none, tsOf entry⟩)
    else (st, none)
  else (st, none)

/-- One record of `extract_conversation`'s per-line body: the
user/assistant/progress/detailed `elif` chain, returning the updated
tables and the appended message, if any. -/
def processEntry (detailed : Bool) (st : PState) (entry : Json) :
    PState × Option Message :=
  if typeIs entry "user" && entry.hasKey "message" then
    match entry.lookup "message" with
    | some msg =>
        if msg.isObj && roleIs msg "user" then
          let content := msg.getD "content" (.str "")
          let rich := _fill_tool_names (_extract_rich_content content detailed)
            st.toolUseToName
          (st, emitIfText "user" rich none (tsOf entry))
        else (st, none)
    | none => (st, none)
  else if typeIs entry "assistant" && entry.hasKey "message" then
    match entry.lookup "message" with
    | some msg =>
        if msg.isObj && roleIs msg "assistant" then
          let content := msg.getD "content" (.arr [])
          let st1 := trackContentA false st content
          let rich := _fill_tool_names (_extract_rich_content content detailed)
            st1.toolUseToName
          (st1, emitIfText "assistant" rich none (tsOf entry))
        else (st, none)
    | none => (st, none)
  else if typeIs entry "progress" then
    processProgress detailed st entry
  else if detailed then
    processDetailedEntry st entry
  else (st, none)

/-- `extract_conversation(jsonl_path, detailed)` at line granularity:
each file line is `none` when `json.loads` raises (the
`except json.JSONDecodeError: continue` / generic `except` path) and
`some entry` when it parses.  Fresh tables are created per call; the
messages are collected in file order.  (I/O errors around the loop are
outside the model; every step here is total, so no exception escapes.) -/
def extract_conversation (detailed : Bool) (lines : List (Option Json)) :
    List Message :=
  go ⟨[], []⟩ lines
where
  go : PState → List (Option Json) → List Message
  | _, [] => []
  | st, none :: rest => go st rest
  | st, some e :: rest =>
      match processEntry detailed st e with
      | (st1, some m) => m :: go st1 rest
      | (st1, none) => go st1 rest

/-- `WatchServer._parse_entry(entry)`: the watch-server variant of the
per-record body — user/assistant/progress only (no detailed branch),
extraction always `detailed=True`, and the `Task` registration also
requires a non-empty tool id. -/
def _parse_entry (st : PState) (entry : Json) : PState × Option Message :=
  if typeIs entry "user" && entry.hasKey "message" then
    match entry.lookup "message" with
    | some msg =>
        if msg.isObj && roleIs msg "user" then
          let content := msg.getD "content" (.str "")
          let rich := _fill_tool_names (_extract_rich_content content true)
            st.toolUseToName
          (st, emitIfText "user" rich none (tsOf entry))
        else (st, none)
    | none => (st, none)
  else if typeIs entry "assistant" && entry.hasKey "message" then
    match entry.lookup "message" with
    | some msg =>
        if msg.isObj && roleIs msg "assistant" then
          let content := msg.getD "content" (.arr [])
          let st1 := trackContentA true st content
          let rich := _fill_tool_names (_extract_rich_content content true)
            st1.toolUseToName
          (st1, emitIfText "assistant" rich none (tsOf entry))
        else (st, none)
    | none => (st, none)
  else if typeIs entry "progress" then
    let data := entry.getD "data" (.obj [])
    if typeIs data "agent_progress" then
      let messageData := data.getD "message" (.obj [])
      if pyTruthy messageData then
        let msg := messageData.getD "message" (.obj [])
        let agentId := data.getStrD "agentId" "unknown"
        let parentId := entry.getStrD "parentToolUseID" ""
        let subagentType := mapGet st.toolUseToSubagentType parentId
        let ts := (messageData.lookup "timestamp").getD (tsOf entry)
        if typeIs messageData "user" || typeIs messageData "assistant" then
          let expectedRole := if typeIs messageData "user" then "user" else "assistant"
          let roleKey :=
            if typeIs messageData "user" then "subagent_user" else "subagent_assistant"
          if roleIs msg expectedRole then
            let content := msg.getD "content" (.arr [])
            let st1 := trackContentN st content
            let rich := _fill_tool_names (_extract_rich_content content true)
              st1.toolUseToName
            (st1, emitIfText roleKey rich
              (some ⟨agentId, "subagent", subagentType, parentId⟩) ts)
          else (st, none)
        else (st, none)
      else (st, none)
    else (st, none)
  else (st, none)

/-- One line as seen by `_load_initial` / `_process_new_content`:
whitespace-only (skipped before parsing), invalid JSON (the
`except ...: continue` path), or a parsed record. -/
inductive WLine where
  | blank
  | bad
  | good (e : Json)

/-- The shared per-line loop of `_load_initial` and
`_process_new_content`: skip blank and unparseable lines, run
`_parse_entry` on the rest, threading the tables and collecting the
produced messages in order. -/
def runLinesFrom (st : PState) : List WLine → PState × List Message
  | [] => (st, [])
  | .blank :: rest => runLinesFrom st rest
  | .bad :: rest => runLinesFrom st rest
  | .good e :: rest =>
      match _parse_entry st e with
      | (st1, om) =>
          match runLinesFrom st1 rest with
          | (st2, ms) => (st2, om.toList ++ ms)

/-- `WatchServer._load_initial()` at line granularity: parse the whole
file with fresh tables, returning the bootstrap conversation and the
tables the poll loop continues from (the byte offset bookkeeping is
modelled separately, see `_process_new_content_read`). -/
def _load_initial (ls : List WLine) : PState × List Message :=
  runLinesFrom ⟨[], []⟩ ls

/-- A sequence of polls: each `_process_new_content` call parses one
chunk of lines, continuing from the previous tables; the broadcast
messages of all polls are concatenated in order. -/
def pollAll (st : PState) : List (List WLine) → PState × List Message
  | [] => (st, [])
  | chunk :: rest =>
      match runLinesFrom st chunk with
      | (st1, ms) =>
          match pollAll st1 rest with
          | (st2, ms2) => (st2, ms ++ ms2)

/-- Python `f.readlines()` on the remaining bytes: split after each
newline, keeping the newline, and keep a trailing fragment with no
terminating newline as a final element. -/
def readlinesAux : List Char → List Char → List (List Char)
  | [], acc => if acc.isEmpty then [] else [acc.reverse]
  | c :: cs, acc =>
      if c = '\n' then (acc.reverse ++ ['\n']) :: readlinesAux cs []
      else readlinesAux cs (c :: acc)

/-- Python `f.readlines()` from the current position. -/
def pyReadlines (s : List Char) : List (List Char) := readlinesAux s []

/-- The I/O skeleton of `WatchServer._process_new_content`:
`f.seek(self._last_offset); new_lines = f.readlines();
self._last_offset = f.tell()` — returns the lines handed to the
per-line parsing loop (including any unterminated trailing fragment)
and the new `_last_offset` (the end of file, since `readlines`
consumes everything). -/
def _process_new_content_read (fileData : List Char) (lastOffset : Nat) :
    List (List Char) × Nat :=
  (pyReadlines (fileData.drop lastOffset), fileData.length)

/-- `json.dumps(html_fragment)` as applied by `WatchServer._broadcast`
(the `ensure_ascii=True` default's `\uXXXX` escaping of non-ASCII
characters is not modelled; no claim evaluates the payload encoding). -/
def ssePayload (frag : String) : String := jsonQuote frag

/-- One operation on the subscriber registry: `_subscribe()` appends a
fresh empty queue; `_broadcast(frag)` appends the JSON-encoded payload
to every currently registered queue, in one pass under the lock. -/
inductive BOp where
  | sub
  | pub (frag : String)

/-- One registry step. -/
def bstep (qs : List (List String)) : BOp → List (List String)
  | .sub => qs ++ [[]]
  | .pub frag => qs.map (fun q => q ++ [ssePayload frag])

/-- Run a trace of subscribe/publish operations from a registry state. -/
def brunFrom (qs : List (List String)) (ops : List BOp) : List (List String) :=
  ops.foldl bstep qs

/-- Run a trace from the empty registry; the result lists each
subscriber's delivered queue, in subscription order. -/
def brun (ops : List BOp) : List (List String) := brunFrom [] ops

/-- The payloads published in a trace, in order. -/
def pubsOf (ops : List BOp) : List String :=
  ops.filterMap (fun o => match o with | .pub f => some (ssePayload f) | .sub => none)

/-! ## Supporting lemmas -/

/-- Processing a line that failed JSON parsing changes nothing: the
collector loop over a line list equals the loop over the parseable
lines only. -/
theorem extract_go_filterMap (detailed : Bool) (lines : List (Option Json)) (st : PState) :
    extract_conversation.go detailed st lines =
      extract_conversation.go detailed st ((lines.filterMap id).map some) := by
  induction lines generalizing st with
  | nil => rfl
  | cons l rest ih =>
    cases l with
    | none =>
      simp only [List.filterMap_cons, id]
      exact ih st
    | some e =>
      simp only [List.filterMap_cons, id, List.map_cons, extract_conversation.go]
      cases h : processEntry detailed st e with
      | mk st1 om =>
        cases om with
        | none => exact ih st1
        | some m => simp [ih st1]

/-- Splitting a line list anywhere and running the watch loop over the
two halves, threading the tables, equals one run over the whole list. -/
theorem runLinesFrom_append (st : PState) (a b : List WLine) :
    runLinesFrom st (a ++ b) =
      ((runLinesFrom (runLinesFrom st a).1 b).1,
       (runLinesFrom st a).2 ++ (runLinesFrom (runLinesFrom st a).1 b).2) := by
  induction a generalizing st with
  | nil => simp [runLinesFrom]
  | cons l rest ih =>
    cases l with
    | blank => simpa [runLinesFrom] using ih st
    | bad => simpa [runLinesFrom] using ih st
    | good e =>
      simp only [List.cons_append, runLinesFrom]
      cases h : _parse_entry st e with
      | mk st1 om =>
        simp only [List.append_eq, ih st1, List.append_assoc]

/-- A sequence of polls over chunks equals one run over their
concatenation. -/
theorem pollAll_flatten (chunks : List (List WLine)) (st : PState) :
    runLinesFrom st chunks.flatten = pollAll st chunks := by
  induction chunks generalizing st with
  | nil => rfl
  | cons c cs ih =>
    simp only [List.flatten_cons, pollAll, runLinesFrom_append, ih]

/-- A character that is in a list and fails the predicate survives
`dropWhile`. -/
theorem mem_dropWhile_of_not (p : Char → Bool) (c : Char) (l : List Char)
    (hc : c ∈ l) (hp : ¬ p c) : c ∈ l.dropWhile p := by
  induction l with
  | nil => cases hc
  | cons a l ih =>
    by_cases ha : p a
    · rw [List.dropWhile_cons_of_pos ha]
      rcases List.mem_cons.mp hc with rfl | hm
      · exact absurd ha hp
      · exact ih hm
    · rw [List.dropWhile_cons_of_neg ha]
      exact hc

/-- A string containing a non-whitespace character strips to a
non-empty string. -/
theorem pyStrip_ne_empty (s : String) (c : Char) (hc : c ∈ s.data)
    (hw : ¬ c.isWhitespace) : pyStrip s ≠ "" := by
  intro h
  have hl : pyStripList s.data = [] := congrArg String.data h
  unfold pyStripList at hl
  rw [List.reverse_eq_nil_iff] at hl
  have hall := List.dropWhile_eq_nil_iff.mp hl
  have h1 : c ∈ (s.data.dropWhile Char.isWhitespace) :=
    mem_dropWhile_of_not _ _ _ hc hw
  have h2 : c ∈ (s.data.dropWhile Char.isWhitespace).reverse :=
    List.mem_reverse.mpr h1
  exact hw (hall c h2)

/-- Characters of the left operand survive string append. -/
theorem mem_data_append_left (a b : String) (c : Char) (hc : c ∈ a.data) :
    c ∈ (a ++ b).data := by
  rw [String.data_append]
  exact List.mem_append_left _ hc

/-- A message that passes the emission filter has a non-empty stripped
text projection. -/
theorem emitIfText_strip (role : String) (rich : ExtractResult)
    (meta : Option MessageMeta) (ts : Json) (m : Message)
    (h : emitIfText role rich meta ts = some m) :
    pyStrip (textProjER m.content) ≠ "" := by
  unfold emitIfText at h
  split at h
  · rename_i hg
    cases h
    simpa using hg
  · cases h

/-- The detailed-mode entries carry labelled plain-string content whose
stripped projection is never empty (each label starts with a
non-whitespace character). -/
theorem processDetailedEntry_strip (st : PState) (e : Json) (st1 : PState)
    (m : Message) (h : processDetailedEntry st e = (st1, some m)) :
    pyStrip (textProjER m.content) ≠ "" := by
  simp only [processDetailedEntry] at h
  split at h
  · cases h
    exact pyStrip_ne_empty _ '🔧'
      (mem_data_append_left _ _ _ (mem_data_append_left _ _ _
        (mem_data_append_left _ _ _ (by decide)))) (by decide)
  · split at h
    · cases h
      exact pyStrip_ne_empty _ '📤' (mem_data_append_left _ _ _ (by decide)) (by decide)
    · split at h
      · split at h
        · cases h
          exact pyStrip_ne_empty _ 'ℹ' (mem_data_append_left _ _ _ (by decide)) (by decide)
        · simp [Prod.ext_iff] at h
      · simp [Prod.ext_iff] at h

/-- Subagent progress messages pass through the emission filter. -/
theorem processProgress_strip (detailed : Bool) (st : PState) (e : Json)
    (st1 : PState) (m : Message) (h : processProgress detailed st e = (st1, some m)) :
    pyStrip (textProjER m.content) ≠ "" := by
  simp only [processProgress] at h
  split at h
  · split at h
    · split at h
      · exact emitIfText_strip _ _ _ _ _ (congrArg Prod.snd h)
      · split at h
        · exact emitIfText_strip _ _ _ _ _ (congrArg Prod.snd h)
        · simp [Prod.ext_iff] at h
    · simp [Prod.ext_iff] at h
  · simp [Prod.ext_iff] at h

/-- Every message emitted for a record has a non-empty stripped text
projection. -/
theorem processEntry_strip (detailed : Bool) (st : PState) (e : Json)
    (st1 : PState) (m : Message)
    (h : processEntry detailed st e = (st1, some m)) :
    pyStrip (textProjER m.content) ≠ "" := by
  simp only [processEntry] at h
  split at h
  · split at h
    · split at h
      · exact emitIfText_strip _ _ _ _ _ (congrArg Prod.snd h)
      · simp [Prod.ext_iff] at h
    · simp [Prod.ext_iff] at h
  · split at h
    · split at h
      · split at h
        · exact emitIfText_strip _ _ _ _ _ (congrArg Prod.snd h)
        · simp [Prod.ext_iff] at h
      · simp [Prod.ext_iff] at h
    · split at h
      · exact processProgress_strip _ _ _ _ _ h
      · split at h
        · exact processDetailedEntry_strip _ _ _ _ h
        · simp [Prod.ext_iff] at h

/-- The collector loop preserves the non-empty-projection invariant. -/
theorem extract_go_strip (detailed : Bool) (lines : List (Option Json))
    (st : PState) (m : Message)
    (hm : m ∈ extract_conversation.go detailed st lines) :
    pyStrip (textProjER m.content) ≠ "" := by
  induction lines generalizing st with
  | nil => cases hm
  | cons l rest ih =>
    cases l with
    | none => exact ih st hm
    | some e =>
      revert hm
      simp only [extract_conversation.go]
      cases h : processEntry detailed st e with
      | mk st' om =>
        cases om with
        | none => exact fun hm => ih st' hm
        | some m0 =>
          intro hm
          rcases List.mem_cons.mp hm with rfl | hm2
          · exact processEntry_strip _ _ _ _ _ h
          · exact ih st' hm2

/-- Setting a key in the resolution table makes it resolve to that
value. -/
theorem mapGet_mapSet_self (mp : List (String × String)) (k v : String) :
    mapGet (mapSet mp k v) k = v := by
  induction mp with
  | nil => simp [mapSet, mapGet]
  | cons p rest ih =>
    by_cases hk : p.1 == k
    · simp [mapSet, hk, mapGet]
    · simp only [mapSet, hk]
      rw [if_neg (by simp_all)]
      simpa [mapGet, List.find?, hk] using ih

/-- A queue registered in the broadcaster receives exactly the payloads
published afterwards, appended in publish order. -/
theorem brunFrom_getElem (ops : List BOp) (qs : List (List String)) (i : Nat)
    (q : List String) (h : qs[i]? = some q) :
    (brunFrom qs ops)[i]? = some (q ++ pubsOf ops) := by
  induction ops generalizing qs q with
  | nil => simpa [brunFrom, pubsOf]
  | cons op ops ih =>
    cases op with
    | sub =>
      have hi : i < qs.length := (List.getElem?_eq_some_iff.mp h).1
      have h2 : (qs ++ [[]])[i]? = some q := by
        rw [List.getElem?_append_left hi]; exact h
      have := ih (qs ++ [[]]) q h2
      simpa [brunFrom, bstep, pubsOf] using this
    | pub f =>
      have h2 : (qs.map (fun l => l ++ [ssePayload f]))[i]? =
          some (q ++ [ssePayload f]) := by
        simp [List.getElem?_map, h]
      have := ih _ _ h2
      simpa [brunFrom, bstep, pubsOf] using this

/-- Every character produced by the HTML escaper is harmless: never a
raw angle bracket or quote. -/
theorem escHtmlChar_no_special (a c : Char) (hc : c ∈ escHtmlChar a) :
    c ≠ '<' ∧ c ≠ '>' ∧ c ≠ '"' ∧ c ≠ aposChar := by
  unfold escHtmlChar at hc
  by_cases h1 : a = '&'
  · rw [if_pos h1] at hc
    rw [show ("&amp;".data) = ['&', 'a', 'm', 'p', ';'] from rfl] at hc
    fin_cases hc <;> decide
  · rw [if_neg h1] at hc
    by_cases h2 : a = '<'
    · rw [if_pos h2] at hc
      rw [show ("&lt;".data) = ['&', 'l', 't', ';'] from rfl] at hc
      fin_cases hc <;> decide
    · rw [if_neg h2] at hc
      by_cases h3 : a = '>'
      · rw [if_pos h3] at hc
        rw [show ("&gt;".data) = ['&', 'g', 't', ';'] from rfl] at hc
        fin_cases hc <;> decide
      · rw [if_neg h3] at hc
        by_cases h4 : a = '"'
        · rw [if_pos h4] at hc
          rw [show ("&quot;".data) = ['&', 'q', 'u', 'o', 't', ';'] from rfl] at hc
          fin_cases hc <;> decide
        · rw [if_neg h4] at hc
          by_cases h5 : a = aposChar
          · rw [if_pos h5] at hc
            rw [show ("&#x27;".data) = ['&', '#', 'x', '2', '7', ';'] from rfl] at hc
            fin_cases hc <;> decide
          · rw [if_neg h5] at hc
            rcases List.mem_cons.mp hc with rfl | hm
            · exact ⟨h2, h3, h4, h5⟩
            · cases hm

/-! ## Concrete records and contents used by the claims -/

/-- An assistant record registering ToolUse `{id: "t1", name: "Read"}`. -/
def c4ToolUseRecord : Json :=
  .obj [("type", .str "assistant"),
        ("message", .obj [("role", .str "assistant"),
          ("content", .arr [.obj [("type", .str "tool_use"), ("id", .str "t1"),
            ("name", .str "Read"), ("input", .obj [("file", .str "a.py")])]])])]

/-- A user record carrying ToolResult `{toolUseId: "t1"}` with inner
text `"ok"`. -/
def c4ToolResultRecord : Json :=
  .obj [("type", .str "user"),
        ("message", .obj [("role", .str "user"),
          ("content", .arr [.obj [("type", .str "tool_result"),
            ("tool_use_id", .str "t1"),
            ("content", .arr [.obj [("type", .str "text"), ("text", .str "ok")]])]])])]

/-- The message the parser emits for `c4ToolResultRecord` when `t1`
resolves to `Read` (note the text projection was built before the fill
pass and therefore shows the truncated id). -/
def c4ResolvedMessage : Message :=
  ⟨"user", .asDict ⟨"rich", "\n[Tool Result: t1...]\nok\n",
    [.toolResult "t1" (some "Read") (.text "ok")]⟩, none, .str ""⟩

/-- The message emitted when `t1` does not resolve: the part's
tool name stays unset. -/
def c4UnresolvedMessage : Message :=
  ⟨"user", .asDict ⟨"rich", "\n[Tool Result: t1...]\nok\n",
    [.toolResult "t1" none (.text "ok")]⟩, none, .str ""⟩

/-- A user record with plain string content `"hello"`. -/
def c5UserHelloRecord : Json :=
  .obj [("type", .str "user"),
        ("message", .obj [("role", .str "user"), ("content", .str "hello")]),
        ("timestamp", .str "2024-01-01T00:00:00Z")]

/-- The message the parser emits for `c5UserHelloRecord`. -/
def c5HelloMessage : Message :=
  ⟨"user", .asDict ⟨"text", "hello", [.text "hello"]⟩, none,
    .str "2024-01-01T00:00:00Z"⟩

/-- An assistant record whose content is a single ToolUse block: with
detailed mode off the block never enters the parts list, so the text
projection is empty. -/
def c5AssistantToolUseOnlyRecord : Json :=
  .obj [("type", .str "assistant"),
        ("message", .obj [("role", .str "assistant"),
          ("content", .arr [.obj [("type", .str "tool_use"), ("id", .str "t9"),
            ("name", .str "Bash"), ("input", .obj [])]])])]

/-- A content value whose image part carries a base64 payload full of
HTML metacharacters. -/
def c6ImageContent : ExtractResult :=
  .asDict ⟨"rich", "\n[Image]\n",
    [.image "base64" (some (.obj [("data", .str "\"><script>alert(1)</script>")]))
      true none]⟩

/-- The simplest structured content: a single text part `"hello"`. -/
def c8HelloContent : RichContent := ⟨"text", "hello", [.text "hello"]⟩

/-- File bytes `'\x7b"a": 1\x7d\n\x7b"ty'`: one newline-terminated
record followed by an unterminated fragment of a half-written record. -/
def c2FileData : List Char := ("\x7b\"a\": 1\x7d\n\x7b\"ty").data

/-! ## Claims -/

/-- Claim C1: for every input file and every interleaving of malformed
lines with valid records, `extract_conversation` returns exactly the
Messages produced from the valid, filtered records, in original file
order.  A line on which `json.loads` raises is `none`; the output over
the interleaved list equals the output over the parseable records
alone (records that parse but have an unexpected shape are themselves
part of that run and produce no message).  Every function involved is
total, so no exception escapes the call — the source catches any
per-record exception and continues. -/
theorem c1_malformed_lines_ignored (detailed : Bool) (lines : List (Option Json)) :
    extract_conversation detailed lines =
      extract_conversation detailed ((lines.filterMap id).map some) :=
  extract_go_filterMap detailed lines ⟨[], []⟩

/-- Claim C2 (code bug): `_process_new_content` does NOT hold back an
unterminated trailing byte sequence.  On the failing input
`c2FileData` with checkpoint 0, the `seek`/`readlines`/`tell` skeleton
hands the parser both the newline-terminated line and the unterminated
fragment, and advances the byte checkpoint to the end of file (13),
not to the end of the fully-consumed newline-terminated lines (9) as
the claim requires — the fragment is parsed speculatively and, once
the checkpoint has moved past it, the half-written record can never be
re-read. -/
theorem c2_unterminated_tail_consumed :
    (_process_new_content_read c2FileData 0).1 =
      ["\x7b\"a\": 1\x7d\n".data, "\x7b\"ty".data]
    ∧ (_process_new_content_read c2FileData 0).2 = 13
    ∧ ("\x7b\"ty".data).getLast? ≠ some '\n'
    ∧ ("\x7b\"a\": 1\x7d\n".data).length = 9
    ∧ (_process_new_content_read c2FileData 0).2 ≠ 9 := by
  refine ⟨?_, ?_, ?_, ?_, ?_⟩ <;> decide

/-- Claim C3: parsing a complete file in one pass from byte 0 yields
the same Message sequence as bootstrapping on a prefix and then
polling the remaining lines delivered in arbitrary chunk boundaries —
under the claim's proviso that each poll consumes only complete
newline-terminated lines, a chunk is a list of whole lines and the
chunks flatten to the remainder of the file. -/
theorem c3_bootstrap_poll_refinement (pre : List WLine) (chunks : List (List WLine)) :
    (_load_initial (pre ++ chunks.flatten)).2 =
      (_load_initial pre).2 ++ (pollAll (_load_initial pre).1 chunks).2 := by
  simp only [_load_initial, runLinesFrom_append, pollAll_flatten]

/-- Claim C4: processing the ToolUse record registers `t1 → Read` in
the resolution table from any prior state; a ToolResult record
processed while the table resolves `t1` to `Read` (i.e. whenever the
ToolUse record preceded it, `t1` being unique) emits its message with
the part's tool name `Read` and renders it as `Read`; processed while
`t1` is unresolved (the ToolResult preceding the ToolUse) the tool
name stays unset and the rendering falls back to the truncated id; and
in the full reversed session the already-emitted message is never
backfilled — the final output still carries the unresolved part. -/
theorem c4_toolname_resolution_order (st : PState) :
    mapGet (processEntry false st c4ToolUseRecord).1.toolUseToName "t1" = "Read"
    ∧ (mapGet st.toolUseToName "t1" = "Read" →
        (processEntry false st c4ToolResultRecord).2 = some c4ResolvedMessage
        ∧ _render_content_to_markdown c4ResolvedMessage.content =
            "\n**📤 Tool Result: Read**\n\n" ++ "\n" ++ "ok\n")
    ∧ (mapGet st.toolUseToName "t1" = "" →
        (processEntry false st c4ToolResultRecord).2 = some c4UnresolvedMessage
        ∧ _render_content_to_markdown c4UnresolvedMessage.content =
            "\n**📤 Tool Result: t1...**\n\n" ++ "\n" ++ "ok\n")
    ∧ extract_conversation false [some c4ToolResultRecord, some c4ToolUseRecord] =
        [c4UnresolvedMessage] := by
  refine ⟨?_, ?_, ?_, ?_⟩
  · show mapGet (mapSet st.toolUseToName "t1" "Read") "t1" = "Read"
    exact mapGet_mapSet_self _ _ _
  · intro h
    constructor
    · show emitIfText "user"
        (_fill_tool_names
          (.asDict ⟨"rich", "\n[Tool Result: t1...]\nok\n",
            [.toolResult "t1" none (.text "ok")]⟩) st.toolUseToName) none (.str "")
        = some c4ResolvedMessage
      simp only [_fill_tool_names, fillPart, List.map]
      rw [h]
      rfl
    · rfl
  · intro h
    constructor
    · show emitIfText "user"
        (_fill_tool_names
          (.asDict ⟨"rich", "\n[Tool Result: t1...]\nok\n",
            [.toolResult "t1" none (.text "ok")]⟩) st.toolUseToName) none (.str "")
        = some c4UnresolvedMessage
      simp only [_fill_tool_names, fillPart, List.map]
      rw [h]
      rfl
    · rfl
  · rfl

/-- Witness for C4: with the table in the state reached after the
ToolUse record, the ToolResult record emits the resolved message and
renders the tool name `Read`. -/
theorem c4_toolname_resolution_order_witness :
    (processEntry false ⟨[("t1", "Read")], []⟩ c4ToolResultRecord).2 =
      some c4ResolvedMessage
    ∧ _render_content_to_markdown c4ResolvedMessage.content =
        "\n**📤 Tool Result: Read**\n\n" ++ "\n" ++ "ok\n" :=
  (c4_toolname_resolution_order ⟨[("t1", "Read")], []⟩).2.1 rfl

/-- Claim C5: every Message emitted by the parser has a non-empty
stripped text projection (for the dict form the projection is the
`text` field, for the detailed-mode plain strings the string itself),
and in particular an assistant record containing only a ToolUse block
produces no Message when detailed mode is off, because ToolUse blocks
enter the parts list only under the detailed flag. -/
theorem c5_nonempty_text_invariant :
    (∀ (detailed : Bool) (lines : List (Option Json)) (m : Message),
        m ∈ extract_conversation detailed lines →
        pyStrip (textProjER m.content) ≠ "")
    ∧ extract_conversation false [some c5AssistantToolUseOnlyRecord] = [] := by
  constructor
  · intro d lines m hm
    exact extract_go_strip d lines ⟨[], []⟩ m hm
  · rfl

/-- Witness for C5: the message extracted from a `"hello"` user record
is in the output and its stripped projection is non-empty. -/
theorem c5_nonempty_text_invariant_witness :
    pyStrip (textProjER c5HelloMessage.content) ≠ "" :=
  c5_nonempty_text_invariant.1 true [some c5UserHelloRecord] c5HelloMessage
    (by
      rw [show extract_conversation true [some c5UserHelloRecord] = [c5HelloMessage]
        from rfl]
      exact List.mem_singleton_self _)

/-- Counterexample for C6: the claim that all text inserted into the
HTML rendering is escaped is false — on a content whose image part
carries a base64 payload of HTML metacharacters, the source renderer
differs from the all-insertions-escaped renderer: the payload enters
the `src` attribute raw. -/
theorem c6_unescaped_image_payload :
    _render_content_to_html c6ImageContent ≠ renderHtmlClaimed c6ImageContent := by
  decide

/-- Claim C6 as amended: every character of `_escape_html`'s output is
free of raw `<`, `>`, `"` and `'` — so every insertion point that goes
through the escaper is safe — while the base64 image payload is
embedded byte-for-byte (verbatim between fixed delimiters) into the
data URL without escaping or recompression. -/
theorem c6_escaping_amended :
    (∀ (s : String) (c : Char), c ∈ (_escape_html s).data →
        c ≠ '<' ∧ c ≠ '>' ∧ c ≠ '"' ∧ c ≠ aposChar)
    ∧ (∀ (srcType : String) (du : Option String) (d : String),
        partHtmlPieces (.image srcType (some (.obj [("data", .str d)])) true du) =
          ["<div class=\"content-image\">" ++ "<img src=\"data:image/jpeg;base64," ++
            d ++ "\" alt=\"Screenshot\" style=\"max-width: 100%; height: auto;\" />" ++
            "</div>"]) := by
  constructor
  · intro s c hc
    unfold _escape_html at hc
    rw [show (String.mk (s.data.flatMap escHtmlChar)).data = s.data.flatMap escHtmlChar
      from rfl] at hc
    rcases List.mem_flatMap.mp hc with ⟨a, _, hmem⟩
    exact escHtmlChar_no_special a c hmem
  · intro srcType du d
    rfl

/-- Witness for C6: evaluating the escaper on `"a<b"`, its character
`'a'` is none of the special characters. -/
theorem c6_escaping_amended_witness :
    'a' ≠ '<' ∧ 'a' ≠ '>' ∧ 'a' ≠ '"' ∧ 'a' ≠ aposChar :=
  c6_escaping_amended.1 "a<b" 'a' (by decide)

/-- Counterexample for C7: there is no stringify fallback for a part
with an unrecognized type tag — both renderers produce for a content
holding only the part `other "bogus"` exactly what they produce for
the same content with no parts at all (the flattened-text fallback):
the part is silently dropped, never stringified. -/
theorem c7_unknown_part_silently_dropped :
    _render_content_to_html (.asDict ⟨"rich", "T", [.other "bogus"]⟩) =
      _render_content_to_html (.asDict ⟨"rich", "T", []⟩)
    ∧ _render_content_to_markdown (.asDict ⟨"rich", "T", [.other "bogus"]⟩) =
      _render_content_to_markdown (.asDict ⟨"rich", "T", []⟩)
    ∧ ([Part.other "bogus"] : List Part) ≠ [] :=
  ⟨rfl, rfl, by simp⟩

/-- Claim C7 as amended: both renderers are total on every Part
variant (they are total Lean functions over the `Part` union), but an
unrecognized variant is silently skipped — inserting it anywhere in
the parts list leaves both renderings unchanged — rather than being
stringified; only the inner content of a `tool_result` part has a
stringify fallback. -/
theorem c7_render_total_skip_amended (k t ty : String) (ps qs : List Part) :
    _render_content_to_html (.asDict ⟨k, t, ps ++ .other ty :: qs⟩) =
      _render_content_to_html (.asDict ⟨k, t, ps ++ qs⟩)
    ∧ _render_content_to_markdown (.asDict ⟨k, t, ps ++ .other ty :: qs⟩) =
      _render_content_to_markdown (.asDict ⟨k, t, ps ++ qs⟩) := by
  constructor
  · show htmlJoin t ((ps ++ .other ty :: qs).flatMap partHtmlPieces) =
      htmlJoin t ((ps ++ qs).flatMap partHtmlPieces)
    congr 1
    simp [partHtmlPieces]
  · show mdJoin t ((ps ++ .other ty :: qs).flatMap partMdPieces) =
      mdJoin t ((ps ++ qs).flatMap partMdPieces)
    congr 1
    simp [partMdPieces]

/-- Counterexample for C8: the round trip fails — rendering the
simplest structured content to the interchange encoding and feeding
the encoded object back through the content normalizer yields the
Python stringification of the dict, not the original text projection
`"hello"`. -/
theorem c8_roundtrip_fails :
    textProjER (_extract_rich_content (encodeContent (.asDict c8HelloContent)) false) ≠
      textProjER (.asDict c8HelloContent) := by
  decide

/-- Claim C8 as amended: the interchange encoding itself is lossless —
the encoded object's `text` field holds the original projection
verbatim, and a message whose content is a plain string round-trips
exactly — but re-normalizing an encoded structured content hits the
normalizer's catch-all branch and produces `str(dict)` as the
projection instead of the original. -/
theorem c8_interchange_amended (c : RichContent) (detailed : Bool) (s : String) :
    _extract_rich_content (encodeContent (.asDict c)) detailed =
      .asDict ⟨"text", pyStr (encodeContent (.asDict c)),
        [.text (pyStr (encodeContent (.asDict c)))]⟩
    ∧ (encodeContent (.asDict c)).lookup "text" = some (.str c.text)
    ∧ _extract_rich_content (encodeContent (.asString s)) detailed =
        .asDict ⟨"text", s, [.text s]⟩ :=
  ⟨rfl, rfl, rfl⟩

/-- Claim C9: in every trace of subscribe/publish operations, the
subscriber registered by a given subscribe receives exactly the
payloads published after its registration, in global publish order —
hence each subscriber registered at publish time receives exactly one
copy per publish, all subscribers see the common fragments in the same
order (each queue is a suffix of the global publish sequence), and a
subscriber that registers after a publish never receives it. -/
theorem c9_broadcast_delivery (ops1 ops2 : List BOp) :
    (brun (ops1 ++ BOp.sub :: ops2))[(brun ops1).length]? = some (pubsOf ops2) := by
  have h0 : (brun ops1 ++ [[]])[(brun ops1).length]? = some ([] : List String) :=
    List.getElem?_concat_length _ _
  have := brunFrom_getElem ops2 (brun ops1 ++ [[]]) (brun ops1).length [] h0
  simpa [brun, brunFrom, List.foldl_append, bstep] using this

/-- The raw-domain collapse rule yields, whenever it returns at all,
the structured dict with type `text` or `rich`. -/
theorem buildRichFull_shape (ps : List PartRaw) (r : ExtractResultRaw)
    (h : buildRichFull ps = some r) :
    ∃ c, r = .asDict c ∧ (c.type = "text" ∨ c.type = "rich") := by
  unfold buildRichFull at h
  split at h
  · cases h
    exact ⟨_, rfl, Or.inl rfl⟩
  · cases h
    exact ⟨_, rfl, Or.inl rfl⟩
  · rcases Option.map_eq_some'.mp h with ⟨l, _, rfl⟩
    exact ⟨_, rfl, Or.inr rfl⟩

/-- Counterexample for C10: the claim is false of the source — on the
input `[{"type": "text", "text": 5}]` the single-text-part collapse
returns the dict `{"type": "text", "text": 5, ...}` whose `text` key
holds a non-string, and on two such blocks the rich-branch
`"\n".join` raises `TypeError`, so no dict is returned at all. -/
theorem c10_nonstring_text_passthrough :
    _extract_rich_content_full
        (.arr [.obj [("type", .str "text"), ("text", .num 5)]]) false =
      some (.asDict ⟨"text", .num 5, [.text (.num 5)]⟩)
    ∧ (Json.num 5).isStr = false
    ∧ _extract_rich_content_full
        (.arr [.obj [("type", .str "text"), ("text", .num 5)],
               .obj [("type", .str "text"), ("text", .num 6)]]) false = none :=
  ⟨rfl, rfl, rfl⟩

/-- Claim C10 as amended: over the full raw input domain,
`_extract_rich_content` never returns the plain-string side of its
declared `Union[str, dict]` type — whenever the call returns (does not
raise), the result is the structured dict whose `type` is `"text"` or
`"rich"` and whose `parts` is a list by construction; but the `text`
key does not always hold a string (a lone text block passes a
non-string payload through raw), and the function is not total (two
non-string text pieces make the join raise). -/
theorem c10_union_shape_amended (content : Json) (detailed : Bool)
    (r : ExtractResultRaw)
    (h : _extract_rich_content_full content detailed = some r) :
    ∃ c, r = .asDict c ∧ (c.type = "text" ∨ c.type = "rich") := by
  cases content with
  | str s =>
    cases h
    exact ⟨_, rfl, Or.inl rfl⟩
  | arr items =>
    unfold _extract_rich_content_full at h
    split at h
    · exact buildRichFull_shape _ _ h
    · cases h
  | null =>
    cases h
    exact ⟨_, rfl, Or.inl rfl⟩
  | bool b =>
    cases h
    exact ⟨_, rfl, Or.inl rfl⟩
  | num n =>
    cases h
    exact ⟨_, rfl, Or.inl rfl⟩
  | obj kvs =>
    cases h
    exact ⟨_, rfl, Or.inl rfl⟩

/-- Witness for the amended C10: evaluating the normalizer on the
string `"hi"` returns the structured dict, whose type is `"text"`. -/
theorem c10_union_shape_amended_witness :
    ∃ c, ExtractResultRaw.asDict ⟨"text", .str "hi", [.text (.str "hi")]⟩ = .asDict c
      ∧ (c.type = "text" ∨ c.type = "rich") :=
  c10_union_shape_amended (.str "hi") false _ rfl

end ClaudeExtractor
